import Mathlib

/-! Verification of the n8n chatbot response-reconciliation engine.

A shallow embedding of `src/src/App.jsx` (the `handleSendMessage` handler and
its helpers) together with proofs of the specification's claims about it.

Strings are modelled as `List Char` (JavaScript strings are sequences of
characters; all operations used by the source — `split`, `trim`, `startsWith`,
`substring`, concatenation — are character-wise).  `JSON.parse` is a host
library call, so stream-frame / body / error decoding is a parameter
`decode : List Char → Option JsonObj` restricted to the object shape the code
reads (`text` and `message` string fields); theorems quantify over it.
-/

set_option maxRecDepth 16384

namespace N8nChat

/-- A chat participant, `msg.sender` in the source (`'user'` / `'bot'`). -/
inductive Sender where
  | user
  | bot
deriving DecidableEq, Repr

/-- One entry of the message log: `{ sender, text, isError }` in the source
(`isError` is absent on ordinary messages, i.e. `false`). -/
structure Message where
  sender : Sender
  text : List Char
  isError : Bool := false
deriving DecidableEq, Repr

/-- The JSON object shape the source reads out of decoded payloads: an
optional `text` field (stream frames and single-object bodies) and an
optional `message` field (embedded error objects).  Fields restricted to
strings, the only case the source consumes. -/
structure JsonObj where
  text : Option (List Char) := none
  message : Option (List Char) := none
deriving DecidableEq, Repr

/-- Characters removed by JavaScript `String.prototype.trim` (the ASCII
white-space and line-terminator set; the source never meets the exotic
Unicode ones). -/
def isJsWhitespace (c : Char) : Bool :=
  c = ' ' || c = '\t' || c = '\n' || c = '\r' || c = '\x0b' || c = '\x0c'

/-- JavaScript `s.trim()`. -/
def jsTrim (s : List Char) : List Char :=
  ((s.dropWhile isJsWhitespace).reverse.dropWhile isJsWhitespace).reverse

/-- JavaScript `hay.includes(needle)` for strings. -/
def jsIncludes (needle : List Char) : List Char → Bool
  | [] => needle.isPrefixOf []
  | c :: cs => needle.isPrefixOf (c :: cs) || jsIncludes needle cs

/-- JavaScript `s.split('\n')` (line 112: `buffer.split('\n')`).  Always
returns at least one element; a trailing `'\n'` yields a trailing `[]`. -/
def splitNl : List Char → List (List Char)
  | [] => [[]]
  | c :: cs =>
    if c = '\n' then [] :: splitNl cs
    else
      match splitNl cs with
      | [] => [[c]]
      | l :: ls => (c :: l) :: ls

/-- Reference splitter used to state line-buffer correctness: the completed
lines of a character stream paired with the trailing unterminated fragment. -/
def splitNlP : List Char → List (List Char) × List Char
  | [] => ([], [])
  | c :: cs =>
    let p := splitNlP cs
    if c = '\n' then ([] :: p.1, p.2)
    else
      match p.1 with
      | [] => ([], c :: p.2)
      | l :: ls => ((c :: l) :: ls, p.2)

/-! Section: Message-log mutations (the three `setMessages` updaters) -/

/-- Lines 123–127: replace the last message by a copy whose text has the
streamed fragment appended.  The log is never empty when this runs (the
placeholder was appended at line 59); on an empty log the source would fault,
modelled as the identity. -/
def appendToLast (msgs : List Message) (tx : List Char) : List Message :=
  match msgs.getLast? with
  | some lastMessage => msgs.dropLast ++ [{ lastMessage with text := lastMessage.text ++ tx }]
  | none => msgs

/-- Lines 95–99: replace the last message by a copy whose text is set to the
single-object body's `text` field. -/
def setLastText (msgs : List Message) (tx : List Char) : List Message :=
  match msgs.getLast? with
  | some lastMessage => msgs.dropLast ++ [{ lastMessage with text := tx }]
  | none => msgs

/-- Lines 156–160: seal the last message with the normalized error text and
`isError := true`. -/
def sealLastError (msgs : List Message) (tx : List Char) : List Message :=
  match msgs.getLast? with
  | some lastMessage => msgs.dropLast ++ [{ lastMessage with text := tx, isError := true }]
  | none => msgs

/-! Section: Stream reassembly (lines 101–136) -/

/-- Lines 115–134: handle one complete line.  A line is a frame iff its trim
starts with `data:`; the payload is `trim(line).substring(5)`; an empty
payload is skipped; a payload that fails to decode is logged and skipped
(the `catch` at line 129); a decoded object appends its `text` field to the
last message when that field is truthy (present and non-empty). -/
def processLine (decode : List Char → Option JsonObj) (msgs : List Message)
    (line : List Char) : List Message :=
  let t := jsTrim line
  if "data:".data.isPrefixOf t then
    let jsonString := t.drop 5
    if jsonString ≠ [] then
      match decode jsonString with
      | some data =>
        match data.text with
        | some tx => if tx ≠ [] then appendToLast msgs tx else msgs
        | none => msgs
      | none => msgs
    else msgs
  else msgs

/-- Lines 111–134, one loop iteration: append the chunk to the buffer, split
on `'\n'`, pop the trailing (possibly incomplete) element back into the
buffer, and process each completed line.  State is `(buffer, messages)`. -/
def streamStep (decode : List Char → Option JsonObj)
    (st : List Char × List Message) (chunk : List Char) :
    List Char × List Message :=
  let lines := splitNl (st.1 ++ chunk)
  (lines.getLastD [], (lines.dropLast).foldl (processLine decode) st.2)

/-- Lines 103–135: the whole read loop, over the list of chunks the transport
delivers, starting from an empty buffer. -/
def runStream (decode : List Char → Option JsonObj) (msgs : List Message)
    (chunks : List (List Char)) : List Message :=
  (chunks.foldl (streamStep decode) ([], msgs)).2

/-- The line buffer in isolation (lines 111–113): same splitting discipline,
state `(buffer, emitted lines so far)`. -/
def lineBufferStep (st : List Char × List (List Char)) (chunk : List Char) :
    List Char × List (List Char) :=
  let lines := splitNl (st.1 ++ chunk)
  (lines.getLastD [], st.2 ++ lines.dropLast)

/-- The ordered sequence of complete lines the line buffer emits over a whole
chunk sequence. -/
def lineBufferRun (chunks : List (List Char)) : List (List Char) :=
  (chunks.foldl lineBufferStep ([], [])).2

/-! Section: Correlation tracking (lines 63–66 and 83–86) -/

/-- Lines 83–86: `if (newChatId && !chatId) setChatId(newChatId)`.  `none`
models JavaScript `null` (header absent / initial state); truthiness of a
string is non-emptiness. -/
def updateChatId (chatId : Option (List Char)) (header : Option (List Char)) :
    Option (List Char) :=
  match header with
  | some newChatId =>
    if newChatId ≠ [] ∧ (chatId.getD []) = [] then some newChatId else chatId
  | none => chatId

/-- Lines 63–66: the outbound request headers — `Content-Type` always, plus
`X-N8N-CHAT-ID` when a truthy chatId is held. -/
def requestHeaders (chatId : Option (List Char)) :
    List (List Char × List Char) :=
  let headers := [("Content-Type".data, "application/json".data)]
  match chatId with
  | some c => if c ≠ [] then headers ++ [("X-N8N-CHAT-ID".data, c)] else headers
  | none => headers

/-! Section: Response classification (lines 89–101) -/

/-- The two response-handling paths. -/
inductive RespPath where
  | singleObject
  | eventStream
deriving DecidableEq, Repr

/-- Lines 89–91: `contentType && contentType.includes("application/json")`
chooses the single-object path; anything else (including an absent header)
falls to the streaming path. -/
def classify (contentType : Option (List Char)) : RespPath :=
  match contentType with
  | some ct =>
    if ct ≠ [] ∧ jsIncludes "application/json".data ct then RespPath.singleObject
    else RespPath.eventStream
  | none => RespPath.eventStream

/-- Lines 93–100: the single-object path body — set (not append) the last
message's text when the decoded body carries a truthy `text` field. -/
def singleObjectUpdate (data : JsonObj) (msgs : List Message) : List Message :=
  match data.text with
  | some tx => if tx ≠ [] then setLastText msgs tx else msgs
  | none => msgs

/-! Section: Error normalization (lines 138–160) -/

/-- The JavaScript regex `/{.*}/` applied by `err.message.match` (line 143):
at the first position where a `{` is followed by a `}` with no line
terminator in between, match greedily from that `{` to the last such `}`.
`.` does not match `'\n'`. -/
def regexBraceMatch : List Char → Option (List Char)
  | [] => none
  | c :: cs =>
    if c = '{' then
      let sameLine := cs.takeWhile (fun d => d ≠ '\n')
      match (sameLine.enum.filter (fun p => p.2 = '}')).getLast? with
      | some p => some ('{' :: sameLine.take (p.1 + 1))
      | none => regexBraceMatch cs
    else regexBraceMatch cs

/-- Line 141: the generic user-facing message built around the raw error
text. -/
def genericError (errMsg : List Char) : List Char :=
  "Error: ".data ++ errMsg ++ ". Please check the webhook URL and your n8n workflow.".data

/-- Line 148: the enriched template embedding the workflow's own `message`
plus the fixed misconfiguration checklist. -/
def enrichedError (workflowMsg : List Char) : List Char :=
  "An error occurred in your n8n workflow: \"".data ++ workflowMsg ++
    "\"\n\nCommon issues to check:\n1. Is the workflow active?\n2. Is the API key in your Google Gemini node valid?\n3. Is the model name correct?\n4. Check the workflow execution logs in n8n for more details.".data

/-- Lines 141–153: normalize an error message.  Start from the generic
message; if the raw text contains a `/{.*}/` match that decodes to an object
with a truthy `message` field, switch to the enriched template; a failed
decode is swallowed (inner `catch`, line 150) and the generic message kept. -/
def normalizeError (decode : List Char → Option JsonObj) (errMsg : List Char) :
    List Char :=
  let userFriendlyError := genericError errMsg
  match regexBraceMatch errMsg with
  | some m =>
    match decode m with
    | some errorJson =>
      match errorJson.message with
      | some wm => if wm ≠ [] then enrichedError wm else userFriendlyError
      | none => userFriendlyError
    | none => userFriendlyError
  | none => userFriendlyError

/-- Line 78: the `Error` message thrown on a non-ok response:
`Network response was not ok: ${status} ${errorText}`. -/
def httpErrMsg (status : Nat) (errorText : List Char) : List Char :=
  "Network response was not ok: ".data ++ (Nat.repr status).data ++ " ".data ++ errorText

/-! Section: The top-level handler (lines 43–164) -/

/-- The component state the handler reads and writes (lines 24–31): the held
chatId, the message log, the loading flag, the error banner (`[]` = no
banner, matching the falsy `''`), the input box, and the endpoint URL. -/
structure AppState where
  chatId : Option (List Char)
  messages : List Message
  isLoading : Bool
  error : List Char
  input : List Char
  n8nWebhookUrl : List Char
deriving DecidableEq, Repr

/-- One network response as the transport delivers it: status/ok flag, the
two headers the handler reads, the body as the sequence of chunks
`reader.read()` yields, and an optional transport failure after those chunks
(a rejection of a later `read()`, hitting the outer `catch`). -/
structure NetResponse where
  ok : Bool
  status : Nat
  chatIdHeader : Option (List Char)
  contentType : Option (List Char)
  chunks : List (List Char)
  streamErr : Option (List Char)
deriving DecidableEq, Repr

/-- Line 59's placeholder bot message. -/
def botPlaceholder : Message := { sender := Sender.bot, text := [] }

/-- Line 48's configuration-error banner text. -/
def configError : List Char :=
  "Please enter a valid n8n Webhook URL to start chatting.".data

/-- Lines 76–136, the body of the `try` block after `fetch` resolved: throw
on a non-ok status (before reading any header), otherwise capture the chatId
header (first-wins), classify the content type, and run either the
single-object update or the stream reassembly loop.  Returns the state as
mutated so far together with the thrown error message, if any (`decode`
failure of a whole JSON body throws with the host parser's message,
parameter `jsonErrMsg`). -/
def tryBody (decode : List Char → Option JsonObj) (jsonErrMsg : List Char)
    (st : AppState) (resp : NetResponse) : AppState × Option (List Char) :=
  if !resp.ok then (st, some (httpErrMsg resp.status resp.chunks.flatten))
  else
    let st := { st with chatId := updateChatId st.chatId resp.chatIdHeader }
    match classify resp.contentType with
    | RespPath.singleObject =>
      match decode resp.chunks.flatten with
      | some data => ({ st with messages := singleObjectUpdate data st.messages }, none)
      | none => (st, some jsonErrMsg)
    | RespPath.eventStream =>
      ({ st with messages := runStream decode st.messages resp.chunks }, resp.streamErr)

/-- Lines 43–164, the whole handler.  `net` is the outcome of `fetch` itself
(`.error m` = transport rejection with message `m`).  Returns the final
state and whether a network request was dispatched.  Structure: the two
early returns (lines 45–50), the pre-request mutations (51–59), the `try`
body, the `catch` normalizing and sealing (138–160), and the `finally`
clearing the loading flag (161–163). -/
def handleSendMessage (decode : List Char → Option JsonObj)
    (jsonErrMsg : List Char) (st : AppState)
    (net : Except (List Char) NetResponse) : AppState × Bool :=
  if jsTrim st.input == [] || st.isLoading then (st, false)
  else if jsTrim st.n8nWebhookUrl == [] || !("http".data.isPrefixOf st.n8nWebhookUrl) then
    ({ st with error := configError }, false)
  else
    let st1 := { st with
      error := [],
      messages := st.messages ++ [{ sender := Sender.user, text := st.input }, botPlaceholder],
      input := [],
      isLoading := true }
    let r := match net with
      | Except.error m => (st1, some m)
      | Except.ok resp => tryBody decode jsonErrMsg st1 resp
    let st2 := match r.2 with
      | none => r.1
      | some m =>
        let userFriendlyError := normalizeError decode m
        { r.1 with
          error := userFriendlyError,
          messages := sealLastError r.1.messages userFriendlyError }
    ({ st2 with isLoading := false }, true)

/-- Lines 167–172: the "new chat" action. -/
def handleNewChat (st : AppState) : AppState :=
  { st with
    chatId := none,
    messages := [{ sender := Sender.bot,
                   text := "New chat started. Your conversation history has been cleared.".data }],
    error := [],
    isLoading := false }

/-! Section: Specification-side helpers for stating the stream claims -/

/-- The text fragment one line contributes to the open message: the decoded
payload's `text` field for a data frame, `[]` for everything `processLine`
skips.  Used only to state theorems. -/
def lineText (decode : List Char → Option JsonObj) (line : List Char) :
    List Char :=
  let t := jsTrim line
  if "data:".data.isPrefixOf t then
    let jsonString := t.drop 5
    if jsonString ≠ [] then
      match decode jsonString with
      | some data =>
        match data.text with
        | some tx => tx
        | none => []
      | none => []
    else []
  else []

/-- The line `l` is a well-formed data frame (no embedded terminator, `data:` prefix
after trimming, non-empty payload) whose payload decodes to an object whose
`text` field is `t`. -/
def ValidFrame (decode : List Char → Option JsonObj) (l t : List Char) :
    Prop :=
  '\n' ∉ l ∧ "data:".data.isPrefixOf (jsTrim l) = true ∧
    (jsTrim l).drop 5 ≠ [] ∧
    ∃ o : JsonObj, decode ((jsTrim l).drop 5) = some o ∧ o.text = some t

/-- A concrete decoder covering the handful of JSON payloads used by the
concrete witness instances (a stand-in for `JSON.parse` on those inputs). -/
def sampleDecode : List Char → Option JsonObj := fun s =>
  if s = " \x7b\"text\":\"He\"\x7d".data then
    some { text := some "He".data, message := none }
  else if s = " \x7b\"text\":\"llo\"\x7d".data then
    some { text := some "llo".data, message := none }
  else if s = "\x7b\"message\":\"Invalid API key\"\x7d".data then
    some { text := none, message := some "Invalid API key".data }
  else if s = "\x7b\"text\":\"Hi there\"\x7d".data then
    some { text := some "Hi there".data, message := none }
  else none

/-! Section: Line-buffer lemmas -/

/-- The source splitter `splitNl` is the reference splitter's completed lines followed by the
trailing fragment. -/
theorem splitNl_eq (s : List Char) :
    splitNl s = (splitNlP s).1 ++ [(splitNlP s).2] := by
  induction s with
  | nil => rfl
  | cons c cs ih =>
    by_cases hc : c = '\n'
    · simp [splitNl, splitNlP, hc, ih]
    · simp only [splitNl, splitNlP, if_neg hc]
      cases h : (splitNlP cs).1 with
      | nil => rw [ih, h]; simp
      | cons l ls => rw [ih, h]; simp

/-- Splitting distributes over concatenation: the completed lines of `x ++ y`
are those of `x` followed by those of `x`'s trailing fragment prepended to
`y`, and likewise for the final fragment. -/
theorem splitNlP_append (x y : List Char) :
    splitNlP (x ++ y) =
      ((splitNlP x).1 ++ (splitNlP ((splitNlP x).2 ++ y)).1,
       (splitNlP ((splitNlP x).2 ++ y)).2) := by
  induction x with
  | nil => simp [splitNlP]
  | cons c x ih =>
    by_cases hc : c = '\n'
    · simp only [List.cons_append, List.append_eq, splitNlP, if_pos hc]
      rw [ih]
    · simp only [List.cons_append, List.append_eq, splitNlP, if_neg hc]
      rw [ih]
      cases h : (splitNlP x).1 with
      | nil =>
        simp only [h, List.nil_append]
        simp only [splitNlP, List.cons_append, List.append_eq, if_neg hc]
      | cons l ls =>
        simp [h]

/-- One chunk through the line buffer, in terms of the reference splitter. -/
theorem lineBufferStep_eq (buf : List Char) (acc : List (List Char))
    (chunk : List Char) :
    lineBufferStep (buf, acc) chunk =
      ((splitNlP (buf ++ chunk)).2, acc ++ (splitNlP (buf ++ chunk)).1) := by
  simp [lineBufferStep, splitNl_eq, List.dropLast_concat, List.getLastD_concat]

/-- The trailing fragment produced by the splitter never contains a line
terminator. -/
theorem splitNlP_snd_no_nl (s : List Char) : '\n' ∉ (splitNlP s).2 := by
  induction s with
  | nil => simp [splitNlP]
  | cons c cs ih =>
    by_cases hc : c = '\n'
    · simpa [splitNlP, hc] using ih
    · simp only [splitNlP, if_neg hc]
      cases h : (splitNlP cs).1 with
      | nil =>
        simp only [h]
        intro hm
        rcases List.mem_cons.mp hm with h1 | h2
        · exact hc h1.symm
        · exact ih h2
      | cons l ls => simpa [h] using ih

/-- A string without a line terminator splits to no completed line and
itself as the fragment. -/
theorem splitNlP_no_nl (s : List Char) (h : '\n' ∉ s) :
    splitNlP s = ([], s) := by
  induction s with
  | nil => rfl
  | cons c cs ih =>
    have hc : c ≠ '\n' := fun he => h (he ▸ List.mem_cons_self c cs)
    have ihs : splitNlP cs = ([], cs) := ih (fun hm => h (List.mem_cons_of_mem c hm))
    simp [splitNlP, hc, ihs]

/-- The whole chunk loop of the line buffer, in terms of the reference
splitter applied to the concatenated stream; the running buffer must hold no
line terminator (it is the remainder after the last one). -/
theorem lineBufferRun_eq (cs : List (List Char)) (buf : List Char)
    (acc : List (List Char)) (hbuf : '\n' ∉ buf) :
    cs.foldl lineBufferStep (buf, acc) =
      ((splitNlP (buf ++ cs.flatten)).2, acc ++ (splitNlP (buf ++ cs.flatten)).1) := by
  induction cs generalizing buf acc with
  | nil => simp [splitNlP_no_nl buf hbuf]
  | cons chunk cs ih =>
    rw [List.foldl_cons, lineBufferStep_eq,
      ih _ _ (splitNlP_snd_no_nl (buf ++ chunk))]
    rw [List.flatten_cons, ← List.append_assoc, splitNlP_append (buf ++ chunk) cs.flatten]
    simp

/-! Section: Stream-reassembly lemmas -/

/-- One chunk through the reassembler, in terms of the reference splitter. -/
theorem streamStep_eq (decode : List Char → Option JsonObj) (buf : List Char)
    (msgs : List Message) (chunk : List Char) :
    streamStep decode (buf, msgs) chunk =
      ((splitNlP (buf ++ chunk)).2,
       ((splitNlP (buf ++ chunk)).1).foldl (processLine decode) msgs) := by
  simp [streamStep, splitNl_eq, List.dropLast_concat, List.getLastD_concat]

/-- The whole read loop: the final message log is the fold of `processLine`
over the completed lines of the concatenated stream. -/
theorem runStream_foldl_eq (decode : List Char → Option JsonObj)
    (cs : List (List Char)) (buf : List Char) (msgs : List Message)
    (hbuf : '\n' ∉ buf) :
    cs.foldl (streamStep decode) (buf, msgs) =
      ((splitNlP (buf ++ cs.flatten)).2,
       ((splitNlP (buf ++ cs.flatten)).1).foldl (processLine decode) msgs) := by
  induction cs generalizing buf msgs with
  | nil => simp [splitNlP_no_nl buf hbuf]
  | cons chunk cs ih =>
    rw [List.foldl_cons, streamStep_eq, ih _ _ (splitNlP_snd_no_nl (buf ++ chunk))]
    rw [List.flatten_cons, ← List.append_assoc, splitNlP_append (buf ++ chunk) cs.flatten]
    simp [List.foldl_append]

/-- A newline-free line followed by its terminator peels off the front of
the splitter. -/
theorem splitNlP_line_cons (l z : List Char) (h : '\n' ∉ l) :
    splitNlP (l ++ '\n' :: z) = (l :: (splitNlP z).1, (splitNlP z).2) := by
  induction l with
  | nil => simp [splitNlP]
  | cons c l ih =>
    have hc : c ≠ '\n' := fun he => h (he ▸ List.mem_cons_self c l)
    have ihs := ih (fun hm => h (List.mem_cons_of_mem c hm))
    simp [splitNlP, hc, ihs]

/-- The encoded stream of newline-terminated lines splits back to exactly
those lines with an empty trailing fragment. -/
theorem splitNlP_encoded (lines : List (List Char))
    (h : ∀ l ∈ lines, '\n' ∉ l) :
    splitNlP ((lines.map (fun l => l ++ ['\n'])).flatten) = (lines, []) := by
  induction lines with
  | nil => rfl
  | cons l lines ih =>
    have hl : '\n' ∉ l := h l (List.mem_cons_self l lines)
    have ihs := ih (fun x hx => h x (List.mem_cons_of_mem l hx))
    rw [List.map_cons, List.flatten_cons, List.append_assoc, List.singleton_append,
      splitNlP_line_cons _ _ hl, ihs]

/-- The streamed-append mutation on a log with last element `last`. -/
theorem appendToLast_concat (m0 : List Message) (last : Message)
    (tx : List Char) :
    appendToLast (m0 ++ [last]) tx =
      m0 ++ [{ last with text := last.text ++ tx }] := by
  simp [appendToLast, List.getLast?_concat, List.dropLast_concat]

/-- What one line does to the log: append exactly its `lineText`. -/
theorem processLine_concat (decode : List Char → Option JsonObj)
    (m0 : List Message) (last : Message) (line : List Char) :
    processLine decode (m0 ++ [last]) line =
      m0 ++ [{ last with text := last.text ++ lineText decode line }] := by
  unfold processLine lineText
  by_cases hp : "data:".data.isPrefixOf (jsTrim line) = true
  · simp only [hp, if_true]
    by_cases hj : (jsTrim line).drop 5 ≠ []
    · simp only [if_pos hj]
      cases hd : decode ((jsTrim line).drop 5) with
      | none => simp
      | some data =>
        cases ht : data.text with
        | none => simp [ht]
        | some tx =>
          simp only [ht]
          by_cases htx : tx = []
          · subst htx; simp
          · simp [htx, appendToLast_concat]
    · simp only [hj, if_false]
      simp
  · simp only [hp, if_false]
    simp

/-- Folding `processLine` over a list of lines appends the concatenation of
their `lineText`s to the last message. -/
theorem foldl_processLine (decode : List Char → Option JsonObj)
    (lines : List (List Char)) (m0 : List Message) (last : Message) :
    lines.foldl (processLine decode) (m0 ++ [last]) =
      m0 ++ [{ last with
               text := last.text ++ (lines.map (lineText decode)).flatten }] := by
  induction lines generalizing last with
  | nil => simp
  | cons line lines ih =>
    rw [List.foldl_cons, processLine_concat, ih]
    simp

/-- The reassembly loop over any chunking of an encoded line stream appends
the concatenation of the per-line fragments to the last message. -/
theorem runStream_lines (decode : List Char → Option JsonObj)
    (lines : List (List Char)) (hnl : ∀ l ∈ lines, '\n' ∉ l)
    (cs : List (List Char))
    (hcs : cs.flatten = (lines.map (fun l => l ++ ['\n'])).flatten)
    (m0 : List Message) (last : Message) :
    runStream decode (m0 ++ [last]) cs =
      m0 ++ [{ last with
               text := last.text ++ (lines.map (lineText decode)).flatten }] := by
  unfold runStream
  rw [runStream_foldl_eq decode cs [] _ (by simp), List.nil_append, hcs,
    splitNlP_encoded lines hnl, foldl_processLine]

/-- A `ValidFrame` line contributes exactly its fragment. -/
theorem lineText_validFrame (decode : List Char → Option JsonObj)
    (l t : List Char) (h : ValidFrame decode l t) :
    lineText decode l = t := by
  obtain ⟨-, hp, hj, o, hd, ht⟩ := h
  unfold lineText
  simp [hp, hj, hd, ht]

/-- A `Forall₂` list of valid frames contributes exactly its fragments. -/
theorem map_lineText_validFrames (decode : List Char → Option JsonObj)
    (lines ts : List (List Char))
    (h : List.Forall₂ (ValidFrame decode) lines ts) :
    lines.map (lineText decode) = ts := by
  induction h with
  | nil => rfl
  | cons hv _ ih => simp [lineText_validFrame _ _ _ hv, ih]

/-- Lines matched by `Forall₂ (ValidFrame decode)` contain no terminator. -/
theorem validFrames_no_nl (decode : List Char → Option JsonObj)
    (lines ts : List (List Char))
    (h : List.Forall₂ (ValidFrame decode) lines ts) :
    ∀ l ∈ lines, '\n' ∉ l := by
  induction h with
  | nil => intro l hl; cases hl
  | cons hv _ ih =>
    intro l hl
    rcases List.mem_cons.mp hl with rfl | hl'
    · exact hv.1
    · exact ih l hl'

/-! Section: Claim theorems: the streaming engine -/

/-- C2: for every character stream and every two ways of splitting it into
chunks, the line buffer (accumulate chunk into buffer, split on newline,
retain the trailing element as the new buffer) emits the identical ordered
sequence of complete lines — exactly the completed lines of the whole
stream, so a terminator split across two chunks never produces a false line
break and never drops a character. -/
theorem lineBuffer_chunk_invariance (cs₁ cs₂ : List (List Char))
    (h : cs₁.flatten = cs₂.flatten) :
    lineBufferRun cs₁ = lineBufferRun cs₂ ∧
      lineBufferRun cs₁ = (splitNlP cs₁.flatten).1 := by
  have e : ∀ cs : List (List Char),
      lineBufferRun cs = (splitNlP cs.flatten).1 := by
    intro cs
    unfold lineBufferRun
    rw [lineBufferRun_eq cs [] [] (by simp)]
    simp
  exact ⟨by rw [e cs₁, e cs₂, h], e cs₁⟩

/-- Witness for C2: a terminator split across a chunk boundary yields the
same lines as the unsplit stream. -/
theorem lineBuffer_chunk_invariance_witness :
    lineBufferRun ["ab\nc".data, "d\ne".data] =
        lineBufferRun ["ab".data, "\ncd".data, "\ne".data] ∧
      lineBufferRun ["ab\nc".data, "d\ne".data] =
        (splitNlP (["ab\nc".data, "d\ne".data] : List (List Char)).flatten).1 :=
  lineBuffer_chunk_invariance ["ab\nc".data, "d\ne".data]
    ["ab".data, "\ncd".data, "\ne".data] (by decide)

/-- C1: for every well-formed event stream of frames whose payloads decode
to objects carrying text fragments `ts`, and every way of chunking that
stream, the final open bot message's text is exactly the in-order
concatenation of the fragments — none duplicated, none dropped — and the
earlier log entries are untouched. -/
theorem stream_reassembly_concat (decode : List Char → Option JsonObj)
    (lines ts : List (List Char))
    (hframes : List.Forall₂ (ValidFrame decode) lines ts)
    (cs : List (List Char))
    (hcs : cs.flatten = (lines.map (fun l => l ++ ['\n'])).flatten)
    (m0 : List Message) :
    runStream decode (m0 ++ [botPlaceholder]) cs =
      m0 ++ [{ sender := Sender.bot, text := ts.flatten, isError := false }] := by
  rw [runStream_lines decode lines (validFrames_no_nl decode lines ts hframes)
      cs hcs m0 botPlaceholder,
    map_lineText_validFrames decode lines ts hframes]
  simp [botPlaceholder]

/-- Witness for C1: the spec's scenario — `data: {"text":"He"}` and
`data: {"text":"llo"}` split mid-line across two chunks reassemble to
`"Hello"`. -/
theorem stream_reassembly_concat_witness :
    runStream sampleDecode ([] ++ [botPlaceholder])
        ["data: \x7b\"text\":\"He\"\x7d\nda".data, "ta: \x7b\"text\":\"llo\"\x7d\n".data] =
      [] ++ [{ sender := Sender.bot,
               text := (["He".data, "llo".data] : List (List Char)).flatten,
               isError := false }] :=
  stream_reassembly_concat sampleDecode
    ["data: \x7b\"text\":\"He\"\x7d".data, "data: \x7b\"text\":\"llo\"\x7d".data]
    ["He".data, "llo".data]
    (List.Forall₂.cons
      ⟨by decide, by decide, by decide,
       ⟨{ text := some "He".data, message := none }, by decide, rfl⟩⟩
      (List.Forall₂.cons
        ⟨by decide, by decide, by decide,
         ⟨{ text := some "llo".data, message := none }, by decide, rfl⟩⟩
        List.Forall₂.nil))
    ["data: \x7b\"text\":\"He\"\x7d\nda".data, "ta: \x7b\"text\":\"llo\"\x7d\n".data]
    (by decide) []

/-- C3: a frame whose payload fails to decode is skipped and reassembly
continues — for a stream of valid frames around one malformed frame, under
any chunking, the final open message text is the concatenation of the valid
frames' fragments only. -/
theorem stream_skips_malformed_frame (decode : List Char → Option JsonObj)
    (lines₁ ts₁ lines₂ ts₂ : List (List Char))
    (h1 : List.Forall₂ (ValidFrame decode) lines₁ ts₁)
    (h2 : List.Forall₂ (ValidFrame decode) lines₂ ts₂)
    (bad : List Char) (hbnl : '\n' ∉ bad)
    (hbp : "data:".data.isPrefixOf (jsTrim bad) = true)
    (hbj : (jsTrim bad).drop 5 ≠ [])
    (hbd : decode ((jsTrim bad).drop 5) = none)
    (cs : List (List Char))
    (hcs : cs.flatten =
      ((lines₁ ++ bad :: lines₂).map (fun l => l ++ ['\n'])).flatten)
    (m0 : List Message) :
    runStream decode (m0 ++ [botPlaceholder]) cs =
      m0 ++ [{ sender := Sender.bot, text := ts₁.flatten ++ ts₂.flatten,
               isError := false }] := by
  have hnl : ∀ l ∈ lines₁ ++ bad :: lines₂, '\n' ∉ l := by
    intro l hl
    rcases List.mem_append.mp hl with hl1 | hl2
    · exact validFrames_no_nl decode lines₁ ts₁ h1 l hl1
    · rcases List.mem_cons.mp hl2 with rfl | hl3
      · exact hbnl
      · exact validFrames_no_nl decode lines₂ ts₂ h2 l hl3
  rw [runStream_lines decode _ hnl cs hcs m0 botPlaceholder]
  have hbad : lineText decode bad = [] := by
    unfold lineText
    simp [hbp, hbj, hbd]
  have hmap : (lines₁ ++ bad :: lines₂).map (lineText decode) =
      ts₁ ++ [] :: ts₂ := by
    rw [List.map_append, List.map_cons,
      map_lineText_validFrames decode lines₁ ts₁ h1,
      map_lineText_validFrames decode lines₂ ts₂ h2, hbad]
  rw [hmap]
  simp [botPlaceholder]

/-- Witness for C3: a valid frame, then `data: oops` (undecodable), then
another valid frame still reassemble to `"Hello"`. -/
theorem stream_skips_malformed_frame_witness :
    runStream sampleDecode ([] ++ [botPlaceholder])
        ["data: \x7b\"text\":\"He\"\x7d\ndata: oops\ndata: \x7b\"text\":\"llo\"\x7d\n".data] =
      [] ++ [{ sender := Sender.bot,
               text := (["He".data] : List (List Char)).flatten ++
                 (["llo".data] : List (List Char)).flatten,
               isError := false }] :=
  stream_skips_malformed_frame sampleDecode
    ["data: \x7b\"text\":\"He\"\x7d".data] ["He".data]
    ["data: \x7b\"text\":\"llo\"\x7d".data] ["llo".data]
    (List.Forall₂.cons
      ⟨by decide, by decide, by decide,
       ⟨{ text := some "He".data, message := none }, by decide, rfl⟩⟩
      List.Forall₂.nil)
    (List.Forall₂.cons
      ⟨by decide, by decide, by decide,
       ⟨{ text := some "llo".data, message := none }, by decide, rfl⟩⟩
      List.Forall₂.nil)
    "data: oops".data (by decide) (by decide) (by decide) (by decide)
    ["data: \x7b\"text\":\"He\"\x7d\ndata: oops\ndata: \x7b\"text\":\"llo\"\x7d\n".data]
    (by decide) []

/-! Section: Log-mutation lemmas -/

/-- The single-object set mutation on a log with last element `last`. -/
theorem setLastText_concat (m0 : List Message) (last : Message)
    (tx : List Char) :
    setLastText (m0 ++ [last]) tx = m0 ++ [{ last with text := tx }] := by
  simp [setLastText, List.getLast?_concat, List.dropLast_concat]

/-- The error-sealing mutation on a log with last element `last`. -/
theorem sealLastError_concat (m0 : List Message) (last : Message)
    (tx : List Char) :
    sealLastError (m0 ++ [last]) tx =
      m0 ++ [{ last with text := tx, isError := true }] := by
  simp [sealLastError, List.getLast?_concat, List.dropLast_concat]

/-! Section: Claim theorems: correlation, preconditions, classification, errors -/

/-- C4: the correlationId is set at most once per session, first non-empty
value wins: after two successive responses carrying different non-empty
values under the fixed key, the session holds the first value, and a held
id is never overwritten by any later response header. -/
theorem chatId_first_wins (a b : List Char) (ha : a ≠ []) (_hb : b ≠ [])
    (_hab : a ≠ b) (hdr : Option (List Char)) :
    updateChatId (updateChatId none (some a)) (some b) = some a ∧
      updateChatId (some a) hdr = some a := by
  have h1 : updateChatId none (some a) = some a := by
    simp [updateChatId, ha]
  have h2 : ∀ h : Option (List Char), updateChatId (some a) h = some a := by
    intro h
    cases h with
    | none => rfl
    | some v => simp [updateChatId, ha]
  exact ⟨by rw [h1]; exact h2 (some b), h2 hdr⟩

/-- Witness for C4: the header `"abc"` then `"xyz"` leaves the session
holding `"abc"`, as does any later header. -/
theorem chatId_first_wins_witness :
    updateChatId (updateChatId none (some "abc".data)) (some "xyz".data) =
        some "abc".data ∧
      updateChatId (some "abc".data) (some "q".data) = some "abc".data :=
  chatId_first_wins "abc".data "xyz".data (by decide) (by decide) (by decide)
    (some "q".data)

/-- C5 as stated is false: a whitespace-only send is stopped by the first
early return, which performs no network activity but also produces NO
banner — the state (error included) is returned entirely unchanged, and
the configuration banner is a non-empty string, so no banner was shown. -/
theorem whitespace_send_no_banner :
    handleSendMessage sampleDecode []
        { chatId := none, messages := [], isLoading := false, error := [],
          input := " ".data, n8nWebhookUrl := "http://x".data }
        (Except.error "unreachable".data) =
      ({ chatId := none, messages := [], isLoading := false, error := [],
         input := " ".data, n8nWebhookUrl := "http://x".data }, false) ∧
      configError ≠ [] := by
  exact ⟨rfl, by decide⟩

/-- C5 (amended): empty or whitespace-only input (or a send while one is in
flight) performs zero network activity and leaves the state — banner
included — entirely unchanged; with nonempty trimmed input and not loading,
an endpoint URL that is blank or does not start with `http` performs zero
network activity, leaves the message log untouched, and sets the
ConfigurationError banner. -/
theorem config_precheck (decode : List Char → Option JsonObj)
    (jsonErrMsg : List Char) (st : AppState)
    (net : Except (List Char) NetResponse) :
    ((jsTrim st.input == [] || st.isLoading) = true →
      handleSendMessage decode jsonErrMsg st net = (st, false)) ∧
    ((jsTrim st.input == [] || st.isLoading) = false →
      (jsTrim st.n8nWebhookUrl == [] ||
        !("http".data.isPrefixOf st.n8nWebhookUrl)) = true →
      handleSendMessage decode jsonErrMsg st net =
        ({ st with error := configError }, false)) := by
  constructor
  · intro h
    unfold handleSendMessage
    rw [if_pos h]
  · intro h1 h2
    unfold handleSendMessage
    rw [if_neg (by rw [h1]; simp), if_pos h2]

/-- Witness for C5 (amended): a whitespace-only send is silently ignored; a
nonempty send at the non-`http` URL `ftp://x` sets the banner and nothing
else. -/
theorem config_precheck_witness :
    handleSendMessage sampleDecode []
        { chatId := none, messages := [], isLoading := false, error := [],
          input := " ".data, n8nWebhookUrl := "http://x".data }
        (Except.error "unreachable".data) =
      ({ chatId := none, messages := [], isLoading := false, error := [],
         input := " ".data, n8nWebhookUrl := "http://x".data }, false) ∧
    handleSendMessage sampleDecode []
        { chatId := none, messages := [], isLoading := false, error := [],
          input := "hi".data, n8nWebhookUrl := "ftp://x".data }
        (Except.error "unreachable".data) =
      ({ chatId := none, messages := [], isLoading := false,
         error := configError,
         input := "hi".data, n8nWebhookUrl := "ftp://x".data }, false) := by
  exact ⟨(config_precheck sampleDecode [] _ _).1 (by decide),
    (config_precheck sampleDecode [] _ _).2 (by decide) (by decide)⟩

/-- C6: response classification is a binary branch with no fallback: the
single-object path is taken iff a content type is declared and it includes
`application/json`; any other or absent content kind takes the event-stream
path.  On the single-object path, a present `text` field is written over the
open placeholder's text (set, not append). -/
theorem classify_binary (ct : Option (List Char)) (data : JsonObj)
    (m0 : List Message) (t : List Char) (ht : data.text = some t) :
    (classify ct = RespPath.singleObject ↔
      ∃ s, ct = some s ∧ jsIncludes "application/json".data s = true) ∧
    (classify ct = RespPath.eventStream ↔
      ¬∃ s, ct = some s ∧ jsIncludes "application/json".data s = true) ∧
    singleObjectUpdate data (m0 ++ [botPlaceholder]) =
      m0 ++ [{ sender := Sender.bot, text := t, isError := false }] := by
  have hone : classify ct = RespPath.singleObject ↔
      ∃ s, ct = some s ∧ jsIncludes "application/json".data s = true := by
    cases ct with
    | none => simp [classify]
    | some s =>
      by_cases hs : s = []
      · subst hs
        have : jsIncludes "application/json".data [] = false := by decide
        simp [classify, this]
      · by_cases hj : jsIncludes "application/json".data s = true
        · simp [classify, hs, hj]
        · simp [classify, hs, hj]
  refine ⟨hone, ⟨?_, ?_⟩, ?_⟩
  · intro he hex
    have hsi := hone.mpr hex
    rw [he] at hsi
    exact absurd hsi (by decide)
  · intro hnex
    cases hcl : classify ct with
    | singleObject => exact absurd (hone.mp hcl) hnex
    | eventStream => rfl
  · unfold singleObjectUpdate
    rw [ht]
    by_cases htt : t = []
    · subst htt
      simp [botPlaceholder]
    · simp [htt, setLastText_concat, botPlaceholder]

/-- Witness for C6: `application/json` classifies to the single-object path
and `{"text":"Hi there"}` sets the placeholder's text to `Hi there`. -/
theorem classify_binary_witness :
    (classify (some "application/json".data) = RespPath.singleObject ↔
      ∃ s, (some "application/json".data : Option (List Char)) = some s ∧
        jsIncludes "application/json".data s = true) ∧
    (classify (some "application/json".data) = RespPath.eventStream ↔
      ¬∃ s, (some "application/json".data : Option (List Char)) = some s ∧
        jsIncludes "application/json".data s = true) ∧
    singleObjectUpdate { text := some "Hi there".data, message := none }
        ([] ++ [botPlaceholder]) =
      [] ++ [{ sender := Sender.bot, text := "Hi there".data,
               isError := false }] :=
  classify_binary (some "application/json".data)
    { text := some "Hi there".data, message := none } [] "Hi there".data rfl

/-- C7: for the 500-response scenario whose error text embeds
`{"message":"Invalid API key"}`, the normalized message contains
`Invalid API key` and the fixed misconfiguration checklist, and the open
message is sealed with that exact string and `isError = true`; when the
greedy brace match finds nothing, or the matched region fails to decode, the
generic message built from the raw error text is kept (the decode failure is
swallowed). -/
theorem error_enrichment (decode : List Char → Option JsonObj)
    (hdec : decode "\x7b\"message\":\"Invalid API key\"\x7d".data =
      some { text := none, message := some "Invalid API key".data })
    (m0 : List Message) (last : Message) :
    (jsIncludes "Invalid API key".data
        (normalizeError decode (httpErrMsg 500
          "Workflow error: \x7b\"message\":\"Invalid API key\"\x7d".data)) = true) ∧
    (jsIncludes "Common issues to check:\n1. Is the workflow active?\n2. Is the API key in your Google Gemini node valid?\n3. Is the model name correct?\n4. Check the workflow execution logs in n8n for more details.".data
        (normalizeError decode (httpErrMsg 500
          "Workflow error: \x7b\"message\":\"Invalid API key\"\x7d".data)) = true) ∧
    (sealLastError (m0 ++ [last])
        (normalizeError decode (httpErrMsg 500
          "Workflow error: \x7b\"message\":\"Invalid API key\"\x7d".data)) =
      m0 ++ [{ last with
        text := normalizeError decode (httpErrMsg 500
          "Workflow error: \x7b\"message\":\"Invalid API key\"\x7d".data),
        isError := true }]) ∧
    (∀ e, regexBraceMatch e = none → normalizeError decode e = genericError e) ∧
    (∀ e m, regexBraceMatch e = some m → decode m = none →
      normalizeError decode e = genericError e) := by
  have hmatch : regexBraceMatch (httpErrMsg 500
      "Workflow error: \x7b\"message\":\"Invalid API key\"\x7d".data) =
      some "\x7b\"message\":\"Invalid API key\"\x7d".data := by decide
  have hval : normalizeError decode (httpErrMsg 500
      "Workflow error: \x7b\"message\":\"Invalid API key\"\x7d".data) =
      enrichedError "Invalid API key".data := by
    simp [normalizeError, hmatch, hdec]
  rw [hval]
  refine ⟨by decide, by decide, sealLastError_concat m0 last _, ?_, ?_⟩
  · intro e he
    simp [normalizeError, he]
  · intro e m he hd
    simp [normalizeError, he, hd]

/-- Witness for C7 at the concrete decoder. -/
theorem error_enrichment_witness :
    (jsIncludes "Invalid API key".data
        (normalizeError sampleDecode (httpErrMsg 500
          "Workflow error: \x7b\"message\":\"Invalid API key\"\x7d".data)) = true) ∧
    (jsIncludes "Common issues to check:\n1. Is the workflow active?\n2. Is the API key in your Google Gemini node valid?\n3. Is the model name correct?\n4. Check the workflow execution logs in n8n for more details.".data
        (normalizeError sampleDecode (httpErrMsg 500
          "Workflow error: \x7b\"message\":\"Invalid API key\"\x7d".data)) = true) ∧
    (sealLastError ([] ++ [botPlaceholder])
        (normalizeError sampleDecode (httpErrMsg 500
          "Workflow error: \x7b\"message\":\"Invalid API key\"\x7d".data)) =
      [] ++ [{ botPlaceholder with
        text := normalizeError sampleDecode (httpErrMsg 500
          "Workflow error: \x7b\"message\":\"Invalid API key\"\x7d".data),
        isError := true }]) ∧
    (∀ e, regexBraceMatch e = none →
      normalizeError sampleDecode e = genericError e) ∧
    (∀ e m, regexBraceMatch e = some m → sampleDecode m = none →
      normalizeError sampleDecode e = genericError e) :=
  error_enrichment sampleDecode (by decide) [] botPlaceholder

/-- C8: on every exit path of a dispatched send — success, partial stream
failure, or top-level failure, including when the error path meets an
embedded JSON fragment that fails to decode — the loading flag is false when
the handler returns. -/
theorem loading_cleared (decode : List Char → Option JsonObj)
    (jsonErrMsg : List Char) (st : AppState)
    (net : Except (List Char) NetResponse)
    (h1 : (jsTrim st.input == [] || st.isLoading) = false)
    (h2 : (jsTrim st.n8nWebhookUrl == [] ||
      !("http".data.isPrefixOf st.n8nWebhookUrl)) = false) :
    (handleSendMessage decode jsonErrMsg st net).1.isLoading = false ∧
      (handleSendMessage decode jsonErrMsg st net).2 = true := by
  unfold handleSendMessage
  rw [if_neg (by rw [h1]; simp), if_neg (by rw [h2]; simp)]
  exact ⟨rfl, rfl⟩

/-- Witness for C8: a dispatched send whose `fetch` rejects outright still
returns with the loading flag cleared. -/
theorem loading_cleared_witness :
    (handleSendMessage sampleDecode []
        { chatId := none, messages := [], isLoading := false, error := [],
          input := "hi".data, n8nWebhookUrl := "http://x".data }
        (Except.error "boom".data)).1.isLoading = false ∧
      (handleSendMessage sampleDecode []
        { chatId := none, messages := [], isLoading := false, error := [],
          input := "hi".data, n8nWebhookUrl := "http://x".data }
        (Except.error "boom".data)).2 = true :=
  loading_cleared sampleDecode []
    { chatId := none, messages := [], isLoading := false, error := [],
      input := "hi".data, n8nWebhookUrl := "http://x".data }
    (Except.error "boom".data) (by decide) (by decide)

/-- C9: every response-handling mutation of the log — single-object set,
streamed append, error sealing — replaces only the last element: the earlier
messages (the user's message appended at send time included) and the log
length are unchanged. -/
theorem mutations_touch_only_last (m0 : List Message) (last : Message)
    (t : List Char) :
    (setLastText (m0 ++ [last]) t = m0 ++ [{ last with text := t }] ∧
      (setLastText (m0 ++ [last]) t).dropLast = m0 ∧
      (setLastText (m0 ++ [last]) t).length = (m0 ++ [last]).length) ∧
    (appendToLast (m0 ++ [last]) t =
        m0 ++ [{ last with text := last.text ++ t }] ∧
      (appendToLast (m0 ++ [last]) t).dropLast = m0 ∧
      (appendToLast (m0 ++ [last]) t).length = (m0 ++ [last]).length) ∧
    (sealLastError (m0 ++ [last]) t =
        m0 ++ [{ last with text := t, isError := true }] ∧
      (sealLastError (m0 ++ [last]) t).dropLast = m0 ∧
      (sealLastError (m0 ++ [last]) t).length = (m0 ++ [last]).length) := by
  refine ⟨⟨setLastText_concat m0 last t, ?_, ?_⟩,
    ⟨appendToLast_concat m0 last t, ?_, ?_⟩,
    ⟨sealLastError_concat m0 last t, ?_, ?_⟩⟩ <;>
    simp [setLastText_concat, appendToLast_concat, sealLastError_concat]

/-- C10: a correlation header on a non-ok response is never stored — the
header is read only after the status check passes — so a session holding no
chatId whose response fails still holds none afterwards, and the next
request's headers carry no correlation key. -/
theorem chatId_ignored_on_error (decode : List Char → Option JsonObj)
    (jsonErrMsg : List Char) (st : AppState) (resp : NetResponse)
    (h1 : (jsTrim st.input == [] || st.isLoading) = false)
    (h2 : (jsTrim st.n8nWebhookUrl == [] ||
      !("http".data.isPrefixOf st.n8nWebhookUrl)) = false)
    (hok : resp.ok = false) (hchat : st.chatId = none) :
    (handleSendMessage decode jsonErrMsg st (Except.ok resp)).1.chatId = none ∧
      requestHeaders
          (handleSendMessage decode jsonErrMsg st (Except.ok resp)).1.chatId =
        [("Content-Type".data, "application/json".data)] := by
  have hch : (handleSendMessage decode jsonErrMsg st
      (Except.ok resp)).1.chatId = none := by
    unfold handleSendMessage
    rw [if_neg (by rw [h1]; simp), if_neg (by rw [h2]; simp)]
    simp [tryBody, hok, hchat]
  exact ⟨hch, by rw [hch]; rfl⟩

/-- Witness for C10: a 500 response carrying the correlation header `"abc"`
leaves the session without a chatId and the next request without the
correlation header. -/
theorem chatId_ignored_on_error_witness :
    (handleSendMessage sampleDecode []
        { chatId := none, messages := [], isLoading := false, error := [],
          input := "hi".data, n8nWebhookUrl := "http://x".data }
        (Except.ok
          { ok := false, status := 500, chatIdHeader := some "abc".data,
            contentType := none, chunks := [], streamErr := none })).1.chatId =
        none ∧
      requestHeaders (handleSendMessage sampleDecode []
        { chatId := none, messages := [], isLoading := false, error := [],
          input := "hi".data, n8nWebhookUrl := "http://x".data }
        (Except.ok
          { ok := false, status := 500, chatIdHeader := some "abc".data,
            contentType := none, chunks := [], streamErr := none })).1.chatId =
        [("Content-Type".data, "application/json".data)] :=
  chatId_ignored_on_error sampleDecode []
    { chatId := none, messages := [], isLoading := false, error := [],
      input := "hi".data, n8nWebhookUrl := "http://x".data }
    { ok := false, status := 500, chatIdHeader := some "abc".data,
      contentType := none, chunks := [], streamErr := none }
    (by decide) (by decide) rfl rfl

end N8nChat
